import Mathlib

/-!
Verification of the pagination/sorting/limiting engine and the film
normalization pipelines of the letterbox-list-generator service.

The Lean definitions below are shallow embeddings of the Python functions
in `utils/pagination.py`, `services/film_service.py` and
`services/tmdb_service.py`.  Python machine-level details are modelled
explicitly: list slicing (including negative indices) by `pySlice`,
Python's floor division `//` by `Int.fdiv`, the stable `sorted` builtin by
`List.mergeSort`, and truthiness tests (`if limit:`, `if not title:`) by
explicit case analysis on `Option` values.
-/

namespace LetterboxList

/-- Python list slicing `l[a:b]` for integer bounds: a negative bound is
interpreted relative to the end of the list, and both bounds are clamped
to `[0, len(l)]`; the result is the (possibly empty) run of elements with
resolved indices in `[a', b')`. -/
def pySlice {α : Type} (l : List α) (a b : Int) : List α :=
  let n : Nat := l.length
  let s : Nat := if a < 0 then ((n : Int) + a).toNat else min a.toNat n
  let e : Nat := if b < 0 then ((n : Int) + b).toNat else min b.toNat n
  (l.drop s).take (e - s)

/-- The sorting stage of `paginate_data` (pagination.py lines 32-34):
`if sort_key: data = sorted(data, key=sort_key, reverse=reverse)`.
Python's `sorted` is a stable sort; with `reverse=True` it is a stable
descending sort (ties keep their original relative order).  Both variants
are modelled with the stable `List.mergeSort`. -/
def sortData {α K : Type} [LinearOrder K]
    (sort_key : Option (α → K)) (reverse : Bool) (data : List α) : List α :=
  match sort_key with
  | none => data
  | some key =>
    if reverse then data.mergeSort (fun a b => decide (key b ≤ key a))
    else data.mergeSort (fun a b => decide (key a ≤ key b))

/-- The limiting stage of `paginate_data` (pagination.py lines 36-38):
`if limit: data = data[:limit]`.  A `None` limit and a `0` limit are
falsy in Python, so no truncation happens; any other limit slices. -/
def limitData {α : Type} (limit : Option Int) (data : List α) : List α :=
  match limit with
  | none => data
  | some lim => if lim = 0 then data else pySlice data 0 lim

/-- The result dictionary returned by `paginate_data`. -/
structure PaginationResult (α : Type) where
  total_count : Nat
  paginated_data : List α
  page : Int
  page_size : Int
  total_pages : Int
  has_next : Bool
  has_previous : Bool
  items_count : Nat
  deriving Repr, DecidableEq

/-- Shallow embedding of `paginate_data` (utils/pagination.py).  The
function records `total_count` before any shaping, sorts when a
`sort_key` is given, truncates when `limit` is truthy, slices the page
with Python slicing semantics, and computes `total_pages` with Python's
floor division `//` (here `Int.fdiv`). -/
def paginate_data {α K : Type} [LinearOrder K]
    (data : List α) (limit : Option Int) (page : Int) (page_size : Int)
    (sort_key : Option (α → K)) (reverse : Bool) : PaginationResult α :=
  let total_count := data.length
  let data1 := sortData sort_key reverse data
  let data2 := limitData limit data1
  let total_for_pagination : Int := data2.length
  let start_index := (page - 1) * page_size
  let end_index := start_index + page_size
  let paginated := pySlice data2 start_index end_index
  let total_pages : Int :=
    if total_for_pagination > 0 then
      Int.fdiv (total_for_pagination + page_size - 1) page_size
    else 1
  { total_count := total_count
    paginated_data := paginated
    page := page
    page_size := page_size
    total_pages := total_pages
    has_next := decide (page < total_pages)
    has_previous := decide (page > 1)
    items_count := paginated.length }

/-- No sort key: `paginate_data` at `K := Int` with `sort_key = none`,
matching call sites that pass no `sort_key`. -/
def paginate_data_nokey {α : Type} (data : List α) (limit : Option Int)
    (page : Int) (page_size : Int) : PaginationResult α :=
  paginate_data data limit page page_size (none : Option (α → Int)) false

lemma pySlice_nil {α : Type} (a b : Int) : pySlice ([] : List α) a b = [] := by
  simp [pySlice]

lemma pySlice_eq_drop_take {α : Type} (l : List α) (s ps : Int)
    (hs : 0 ≤ s) (hps : 0 ≤ ps) :
    pySlice l s (s + ps) = (l.drop s.toNat).take ps.toNat := by
  unfold pySlice
  have h1 : ¬ s < 0 := by omega
  have h2 : ¬ s + ps < 0 := by omega
  simp only [if_neg h1, if_neg h2]
  rcases le_or_lt s.toNat l.length with h | h
  · rw [min_eq_left h]
    have he : (s + ps).toNat = s.toNat + ps.toNat := by omega
    have hlen : (l.drop s.toNat).length = l.length - s.toNat := List.length_drop ..
    have hmin : min (s + ps).toNat l.length - s.toNat
        = min ps.toNat (l.length - s.toNat) := by omega
    rw [hmin]
    rcases le_total ps.toNat (l.length - s.toNat) with h3 | h3
    · rw [min_eq_left h3]
    · rw [min_eq_right h3, ← hlen, List.take_length,
        List.take_of_length_le (by omega : (l.drop s.toNat).length ≤ ps.toNat)]
  · rw [min_eq_right (le_of_lt h), List.drop_length,
      List.drop_eq_nil_of_le (le_of_lt h)]
    simp

/-- When the effective slice start is at least the list length, the page
slice is empty. -/
lemma pySlice_eq_nil_of_le {α : Type} (l : List α) (s ps : Int)
    (hs : 0 ≤ s) (hps : 0 ≤ ps) (h : l.length ≤ s) :
    pySlice l s (s + ps) = [] := by
  rw [pySlice_eq_drop_take l s ps hs hps,
    List.drop_eq_nil_of_le (by omega : l.length ≤ s.toNat)]
  simp

/-- The page slice of `paginate_data`, written out: Python
`data[start:end]` with `start = (page-1)*page_size` and
`end = start + page_size`, applied after sorting and limiting. -/
lemma paginated_data_eq {α K : Type} [LinearOrder K]
    (data : List α) (limit : Option Int) (page page_size : Int)
    (sort_key : Option (α → K)) (reverse : Bool) :
    (paginate_data data limit page page_size sort_key reverse).paginated_data
      = pySlice (limitData limit (sortData sort_key reverse data))
          ((page - 1) * page_size) ((page - 1) * page_size + page_size) := rfl

/-- The `total_pages` field of `paginate_data`, written out. -/
lemma total_pages_eq {α K : Type} [LinearOrder K]
    (data : List α) (limit : Option Int) (page page_size : Int)
    (sort_key : Option (α → K)) (reverse : Bool) :
    (paginate_data data limit page page_size sort_key reverse).total_pages
      = if (((limitData limit (sortData sort_key reverse data)).length : Int)) > 0
        then Int.fdiv
          (((limitData limit (sortData sort_key reverse data)).length : Int)
            + page_size - 1) page_size
        else 1 := rfl

lemma one_le_ceil_fdiv {n : Nat} {ps : Int} (hps : 1 ≤ ps) (hn : 0 < n) :
    1 ≤ Int.fdiv ((n : Int) + ps - 1) ps := by
  rw [Int.fdiv_eq_ediv _ (by omega : (0:Int) ≤ ps),
    Int.le_ediv_iff_mul_le (by omega : (0:Int) < ps)]
  omega

lemma le_ceil_fdiv_mul {n : Nat} {ps : Int} (hps : 1 ≤ ps) :
    (n : Int) ≤ Int.fdiv ((n : Int) + ps - 1) ps * ps := by
  have h := Int.lt_fdiv_add_one_mul_self ((n : Int) + ps - 1)
    (by omega : (0:Int) < ps)
  rw [add_mul, one_mul] at h
  linarith

/-- Claim C1 (amended): for every input list and `page_size ≥ 1`, a page
value of `0` or one greater than `total_pages` yields an empty
`paginated_data` (and the function is total, so it never raises).  The
original claim also covered negative pages, which Python's negative
slice indices contradict — see the counterexample. -/
theorem claim_C1_out_of_range_page_empty {α K : Type} [LinearOrder K]
    (data : List α) (limit : Option Int) (page page_size : Int)
    (sort_key : Option (α → K)) (reverse : Bool)
    (hps : 1 ≤ page_size)
    (hpage : page = 0 ∨
      (paginate_data data limit page page_size sort_key reverse).total_pages
        < page) :
    (paginate_data data limit page page_size sort_key reverse).paginated_data
      = [] := by
  rw [paginated_data_eq]
  set l2 := limitData limit (sortData sort_key reverse data) with hl2
  rcases hpage with h0 | hgt
  · subst h0
    have ha : (0 - 1 : Int) * page_size = -page_size := by ring
    have hb : -page_size + page_size = 0 := by ring
    rw [ha, hb]
    simp only [pySlice]
    rw [if_pos (by omega : -page_size < 0), if_neg (by omega : ¬ (0:Int) < 0)]
    simp
  · rw [total_pages_eq, ← hl2] at hgt
    by_cases hn : l2.length = 0
    · rw [List.length_eq_zero.mp hn, pySlice_nil]
    · have hn' : 0 < l2.length := Nat.pos_of_ne_zero hn
      rw [if_pos (by exact_mod_cast hn')] at hgt
      have h1 : 1 ≤ Int.fdiv ((l2.length : Int) + page_size - 1) page_size :=
        one_le_ceil_fdiv hps hn'
      have h2 : (l2.length : Int)
          ≤ Int.fdiv ((l2.length : Int) + page_size - 1) page_size * page_size :=
        le_ceil_fdiv_mul hps
      have hstart : (l2.length : Int) ≤ (page - 1) * page_size :=
        le_trans h2 (mul_le_mul_of_nonneg_right (by omega) (by omega))
      exact pySlice_eq_nil_of_le l2 _ page_size
        (mul_nonneg (by omega) (by omega)) (by omega) hstart

/-- Claim C1 counterexample: a negative page is out of range, yet with
`data = [1,2,3,4,5]`, `page = -1`, `page_size = 2` the slice
`data[-4:-2]` is `[2,3]`, not empty. -/
theorem claim_C1_counterexample :
    (paginate_data_nokey ([1,2,3,4,5] : List Int) none (-1) 2).paginated_data
        = [2, 3]
    ∧ (paginate_data_nokey ([1,2,3,4,5] : List Int) none (-1) 2).paginated_data
        ≠ [] := by
  decide

/-- Claim C1 witness: page 5 of a 3-element list at page size 1 is empty. -/
theorem claim_C1_witness :
    (paginate_data ([1,2,3] : List Int) none 5 1
      (none : Option (Int → Int)) false).paginated_data = [] :=
  claim_C1_out_of_range_page_empty [1,2,3] none 5 1 none false (by decide)
    (Or.inr (by decide))

/-- Claim C2: `total_count` always equals the length of the input list,
whatever the limit, page, page size, sort key and direction are. -/
theorem claim_C2_total_count {α K : Type} [LinearOrder K]
    (data : List α) (limit : Option Int) (page page_size : Int)
    (sort_key : Option (α → K)) (reverse : Bool) :
    (paginate_data data limit page page_size sort_key reverse).total_count
      = data.length := rfl

lemma ceil_fdiv_mul_lt {n : Nat} {ps : Int} (hps : 1 ≤ ps) :
    (Int.fdiv ((n : Int) + ps - 1) ps - 1) * ps < (n : Int) := by
  have h := Int.ediv_mul_le ((n : Int) + ps - 1) (by omega : ps ≠ 0)
  rw [Int.fdiv_eq_ediv _ (by omega : (0:Int) ≤ ps), sub_mul, one_mul]
  linarith

/-- Claim C3: `total_pages` is the ceiling of `effective_count / page_size`
(the effective count being the length after sorting and limiting), and is
`1` rather than `0` on an empty effective sequence; for a non-empty one it
is also characterised as the least page count covering all items. -/
theorem claim_C3_total_pages {α K : Type} [LinearOrder K]
    (data : List α) (limit : Option Int) (page page_size : Int)
    (sort_key : Option (α → K)) (reverse : Bool) (hps : 1 ≤ page_size) :
    ((limitData limit (sortData sort_key reverse data)).length = 0 →
      (paginate_data data limit page page_size sort_key reverse).total_pages
        = 1) ∧
    (0 < (limitData limit (sortData sort_key reverse data)).length →
      (paginate_data data limit page page_size sort_key reverse).total_pages
        = (((limitData limit (sortData sort_key reverse data)).length
            ⌈/⌉ page_size.toNat : Nat) : Int)
      ∧ ((limitData limit (sortData sort_key reverse data)).length : Int)
          ≤ (paginate_data data limit page page_size sort_key
              reverse).total_pages * page_size
      ∧ ((paginate_data data limit page page_size sort_key
            reverse).total_pages - 1) * page_size
          < ((limitData limit (sortData sort_key reverse data)).length : Int)) := by
  set e := (limitData limit (sortData sort_key reverse data)).length with he_def
  set r := paginate_data data limit page page_size sort_key reverse with hr_def
  have hr : r.total_pages
      = if ((e : Int)) > 0
        then Int.fdiv ((e : Int) + page_size - 1) page_size else 1 :=
    total_pages_eq data limit page page_size sort_key reverse
  constructor
  · intro he
    rw [hr, he]
    norm_num
  · intro he
    rw [hr, if_pos (by exact_mod_cast he)]
    refine ⟨?_, le_ceil_fdiv_mul hps, ceil_fdiv_mul_lt hps⟩
    have hcast : (e : Int) + page_size - 1
        = ((e + page_size.toNat - 1 : Nat) : Int) := by omega
    have hps' : page_size = ((page_size.toNat : Nat) : Int) := by omega
    rw [hcast, hps', ← Int.ofNat_fdiv]
    rw [Nat.ceilDiv_eq_add_pred_div]
    simp

/-- Claim C3 witness: 25 effective items at page size 10 give 3 pages,
covering 25 ≤ 30 items with the last page strictly needed. -/
theorem claim_C3_witness :
    ((limitData (some 25)
        (sortData (none : Option (Int → Int)) false
          ((List.range 100).map Int.ofNat))).length = 25)
    ∧ (paginate_data ((List.range 100).map Int.ofNat) (some 25) 3 10
        (none : Option (Int → Int)) false).total_pages = ((25 ⌈/⌉ 10 : Nat) : Int) := by
  refine ⟨by decide, ?_⟩
  exact ((claim_C3_total_pages ((List.range 100).map Int.ofNat) (some 25) 3 10
    none false (by decide)).2 (by decide)).1

lemma sortData_length {α K : Type} [LinearOrder K]
    (sort_key : Option (α → K)) (reverse : Bool) (data : List α) :
    (sortData sort_key reverse data).length = data.length := by
  cases sort_key with
  | none => rfl
  | some key => cases reverse <;> simp [sortData]

lemma limitData_none {α : Type} (l : List α) : limitData none l = l := rfl

lemma limitData_some {α : Type} (l : List α) (k : Int) :
    limitData (some k) l = if k = 0 then l else pySlice l 0 k := rfl

lemma sortData_some_false {α K : Type} [LinearOrder K]
    (key : α → K) (l : List α) :
    sortData (some key) false l
      = l.mergeSort (fun a b => decide (key a ≤ key b)) := rfl

lemma sortData_some_true {α K : Type} [LinearOrder K]
    (key : α → K) (l : List α) :
    sortData (some key) true l
      = l.mergeSort (fun a b => decide (key b ≤ key a)) := rfl

lemma pySlice_zero_pos {α : Type} (l : List α) (k : Int) (hk : 0 < k) :
    pySlice l 0 k = l.take k.toNat := by
  have h := pySlice_eq_drop_take l 0 k le_rfl (le_of_lt hk)
  rw [zero_add] at h
  simpa using h

/-- A stable merge sort of a list, filtered down to the elements whose
sort key takes one fixed value, returns those elements in their original
relative order.  The comparison must hold in both directions on key-equal
elements (`hkeep`), be transitive and total. -/
lemma mergeSort_filter_fixed_key {α : Type} (le : α → α → Bool)
    (htrans : ∀ a b c, le a b → le b c → le a c)
    (htotal : ∀ a b, le a b || le b a)
    (l : List α) (p : α → Bool)
    (hkeep : ∀ a b, p a → p b → le a b) :
    (l.mergeSort le).filter p = l.filter p := by
  have hFpair : (l.filter p).Pairwise (fun a b => le a b = true) :=
    List.pairwise_of_forall_mem_list (fun a ha b hb =>
      hkeep a b (List.of_mem_filter ha) (List.of_mem_filter hb))
  have h1 : List.Sublist (l.filter p) (l.mergeSort le) :=
    List.sublist_mergeSort htrans htotal hFpair (List.filter_sublist l)
  have h2 : (l.filter p).filter p = l.filter p :=
    List.filter_eq_self.mpr (fun a ha => List.of_mem_filter ha)
  have h3 : List.Sublist (l.filter p) ((l.mergeSort le).filter p) :=
    h2 ▸ h1.filter p
  have h4 : ((l.mergeSort le).filter p).length = (l.filter p).length :=
    ((List.mergeSort_perm l le).filter p).length_eq
  exact (h3.eq_of_length h4.symm).symm

/-- Claim C5: the sort stage of `paginate_data` is stable in both
directions: for any key value `k`, the elements whose key equals `k`
appear in the sorted output exactly as they appear in the input; with a
constant key the whole list is returned unchanged; and with no sort key
the input order is preserved verbatim. -/
theorem claim_C5_sort_stable {α K : Type} [LinearOrder K]
    (key : α → K) (rev : Bool) (l : List α) :
    (∀ k : K, (sortData (some key) rev l).filter (fun a => decide (key a = k))
        = l.filter (fun a => decide (key a = k)))
    ∧ (∀ c : K, sortData (some (fun _ => c)) rev l = l)
    ∧ sortData (none : Option (α → K)) rev l = l := by
  refine ⟨fun k => ?_, fun c => ?_, rfl⟩
  · cases rev with
    | false =>
      rw [sortData_some_false]
      refine mergeSort_filter_fixed_key _ ?_ ?_ l _ ?_
      · intro a b c hab hbc
        simp only [decide_eq_true_eq] at *
        exact le_trans hab hbc
      · intro a b
        simpa using le_total (key a) (key b)
      · intro a b ha hb
        simp only [decide_eq_true_eq] at *
        exact le_of_eq (ha.trans hb.symm)
    | true =>
      rw [sortData_some_true]
      refine mergeSort_filter_fixed_key _ ?_ ?_ l _ ?_
      · intro a b c hab hbc
        simp only [decide_eq_true_eq] at *
        exact le_trans hbc hab
      · intro a b
        simpa using le_total (key b) (key a)
      · intro a b ha hb
        simp only [decide_eq_true_eq] at *
        exact le_of_eq (hb.trans ha.symm)
  · have hconst : ∀ (le : α → α → Bool), (∀ a b, le a b) →
        l.mergeSort le = l := fun le hle =>
      List.mergeSort_of_sorted
        (List.pairwise_of_forall_mem_list (fun a _ b _ => hle a b))
    cases rev with
    | false =>
      rw [sortData_some_false]
      exact hconst _ (fun a b => by simp)
    | true =>
      rw [sortData_some_true]
      exact hconst _ (fun a b => by simp)

/-- Claim C6: a `None` limit and a `limit = len(data)` produce identical
pages; `None` and `0` limits truncate nothing, and a positive limit keeps
exactly the first `limit` items of the (possibly sorted) sequence. -/
theorem claim_C6_limit_noop {α K : Type} [LinearOrder K]
    (data l : List α) (page page_size : Int)
    (sort_key : Option (α → K)) (reverse : Bool) (k : Int) (hk : 0 < k) :
    (paginate_data data none page page_size sort_key reverse).paginated_data
      = (paginate_data data (some (data.length : Int)) page page_size
          sort_key reverse).paginated_data
    ∧ limitData none l = l
    ∧ limitData (some 0) l = l
    ∧ limitData (some k) l = l.take k.toNat := by
  refine ⟨?_, rfl, by rw [limitData_some, if_pos rfl], ?_⟩
  · rw [paginated_data_eq, paginated_data_eq]
    congr 1
    rw [limitData_none, limitData_some]
    by_cases h0 : data.length = 0
    · rw [if_pos (by exact_mod_cast h0)]
    · rw [if_neg (by exact_mod_cast h0)]
      rw [pySlice_zero_pos _ _ (by exact_mod_cast Nat.pos_of_ne_zero h0)]
      rw [Int.toNat_natCast,
        ← sortData_length sort_key reverse data, List.take_length]
  · rw [limitData_some, if_neg (by omega : ¬ k = 0), pySlice_zero_pos _ _ hk]

/-- Claim C6 witness: limit `None` and limit `len(data)` agree on a
concrete sorted page, and a positive limit takes a prefix. -/
theorem claim_C6_witness :
    (paginate_data ([3,1,2] : List Int) none 1 2 (some id) false).paginated_data
      = (paginate_data ([3,1,2] : List Int)
          (some (([3,1,2] : List Int).length : Int)) 1 2
          (some id) false).paginated_data
    ∧ limitData (some 2) ([9,8,7] : List Int)
        = ([9,8,7] : List Int).take ((2:Int)).toNat := by
  have h := claim_C6_limit_noop ([3,1,2] : List Int) ([9,8,7] : List Int)
    1 2 (some id) false 2 (by decide)
  exact ⟨h.1, h.2.2.2⟩

/-- Concatenating consecutive fixed-width windows of a list reproduces
its prefix of the corresponding total width. -/
lemma flatMap_range_take_drop {α : Type} (ps : Nat) (l : List α) :
    ∀ k : Nat, (List.range k).flatMap (fun i => (l.drop (i * ps)).take ps)
      = l.take (k * ps)
  | 0 => by simp
  | k + 1 => by
    rw [List.range_succ, List.flatMap_append,
      flatMap_range_take_drop ps l k, List.flatMap_singleton,
      Nat.succ_mul, List.take_add]

/-- Claim C4: concatenating the `paginated_data` of pages `1..total_pages`
(same limit, page size, sort key and direction throughout) yields exactly
the sorted-then-limited sequence, each element once, in order. -/
theorem claim_C4_page_coverage {α K : Type} [LinearOrder K]
    (data : List α) (limit : Option Int) (page_size : Int)
    (sort_key : Option (α → K)) (reverse : Bool) (hps : 1 ≤ page_size) :
    ((List.range
        (paginate_data data limit 1 page_size sort_key reverse).total_pages.toNat).flatMap
      (fun i => (paginate_data data limit ((i : Int) + 1) page_size
          sort_key reverse).paginated_data))
      = limitData limit (sortData sort_key reverse data) := by
  set l2 := limitData limit (sortData sort_key reverse data) with hl2
  set tp := (paginate_data data limit 1 page_size sort_key reverse).total_pages
    with htp
  have hps0 : (0:Int) ≤ page_size := by omega
  have hbody : ∀ i : Nat,
      (paginate_data data limit ((i : Int) + 1) page_size
        sort_key reverse).paginated_data
      = (l2.drop (i * page_size.toNat)).take page_size.toNat := by
    intro i
    rw [paginated_data_eq, ← hl2]
    have h1 : ((i : Int) + 1 - 1) * page_size = (i : Int) * page_size := by
      ring
    rw [h1, pySlice_eq_drop_take l2 _ page_size
      (mul_nonneg (by omega) hps0) hps0]
    congr 1
    have : (i : Int) * page_size = ((i * page_size.toNat : Nat) : Int) := by
      push_cast
      rw [Int.toNat_of_nonneg hps0]
    rw [this, Int.toNat_natCast]
  simp only [hbody]
  rw [flatMap_range_take_drop]
  by_cases hn : l2.length = 0
  · rw [List.length_eq_zero.mp hn, List.take_nil]
  · have hn' : 0 < l2.length := Nat.pos_of_ne_zero hn
    have htp_eq : tp = Int.fdiv ((l2.length : Int) + page_size - 1) page_size := by
      rw [htp, total_pages_eq, ← hl2, if_pos (by exact_mod_cast hn')]
    have htp1 : 1 ≤ tp := htp_eq ▸ one_le_ceil_fdiv hps hn'
    have hcov : (l2.length : Int) ≤ tp * page_size :=
      htp_eq ▸ le_ceil_fdiv_mul hps
    apply List.take_of_length_le
    have hcast : ((tp.toNat * page_size.toNat : Nat) : Int) = tp * page_size := by
      push_cast
      rw [Int.toNat_of_nonneg (by omega : (0:Int) ≤ tp),
        Int.toNat_of_nonneg hps0]
    exact_mod_cast hcast ▸ hcov

/-- Claim C4 witness: three pages of size 2, limit 5, descending sort on
six items reassemble the limited sorted sequence. -/
theorem claim_C4_witness :
    ((List.range
        (paginate_data ([4,6,5,2,3,1] : List Int) (some 5) 1 2
          (some id) true).total_pages.toNat).flatMap
      (fun i => (paginate_data ([4,6,5,2,3,1] : List Int) (some 5)
          ((i : Int) + 1) 2 (some id) true).paginated_data))
      = limitData (some 5) (sortData (some id) true ([4,6,5,2,3,1] : List Int)) :=
  claim_C4_page_coverage ([4,6,5,2,3,1] : List Int) (some 5) 2
    (some id) true (by decide)

/-- A raw per-film record from the film collection supplied by the data
source: fields `name`, `year`, `rating` (0-10 integer or absent) and
`liked` (defaulting to `False`, hence a plain `Bool`). -/
structure RawFilm where
  name : Option String
  year : Option Int
  rating : Option Int
  liked : Bool
  deriving Repr, DecidableEq

/-- A normalized rated-and-liked film as built by
`get_rated_and_liked_films`.  The 10-point rating is halved to a 5-star
scale; halves of small integers are exact in floating point, so the
division is modelled exactly in `ℚ`. -/
structure Film where
  title : Option String
  slug : String
  url : String
  rating : ℚ
  year : Option Int
  deriving Repr, DecidableEq


/-- The per-entry body of `get_rated_and_liked_films`: from a slug and a
raw film, the normalized record when `rating and rating > 0 and liked`
is truthy in Python, `none` otherwise. -/
def ratedFilmEntry (p : String × RawFilm) : Option Film :=
  match p.2.rating with
  | none => none
  | some r =>
    if r ≠ 0 ∧ 0 < r ∧ p.2.liked = true then
      some { title := p.2.name
             slug := p.1
             url := "https://letterboxd.com/film/" ++ p.1 ++ "/"
             rating := (r : ℚ) / 2
             year := p.2.year }
    else none

/-- Shallow embedding of `get_rated_and_liked_films`
(services/film_service.py lines 8-38).  The input models
`user.get_films()`: `none` when the result lacks a `"movies"` key,
otherwise the slug-to-record mapping in its iteration order. -/
def get_rated_and_liked_films
    (films_data : Option (List (String × RawFilm))) : List Film :=
  match films_data with
  | none => []
  | some movies => movies.filterMap ratedFilmEntry

lemma ratedFilmEntry_some_iff (p : String × RawFilm) (g : Film) :
    ratedFilmEntry p = some g
      ↔ ∃ r : Int, p.2.rating = some r ∧ 0 < r ∧ p.2.liked = true
          ∧ g = { title := p.2.name
                  slug := p.1
                  url := "https://letterboxd.com/film/" ++ p.1 ++ "/"
                  rating := (r : ℚ) / 2
                  year := p.2.year } := by
  unfold ratedFilmEntry
  split
  next hr => simp [hr]
  next r hr =>
    rw [hr]
    by_cases hcond : r ≠ 0 ∧ 0 < r ∧ p.2.liked = true
    · rw [if_pos hcond]
      constructor
      · intro h
        exact ⟨r, rfl, hcond.2.1, hcond.2.2, (Option.some_inj.mp h).symm⟩
      · rintro ⟨r', hr', hpos, hlik, hg⟩
        rw [Option.some_inj.mp hr'.symm] at hg
        rw [hg]
    · rw [if_neg hcond]
      constructor
      · intro h
        exact absurd h (by simp)
      · rintro ⟨r', hr', hpos, hlik, hg⟩
        have : r' = r := Option.some_inj.mp hr'.symm
        exact absurd ⟨by omega, by omega, hlik⟩ hcond

/-- A raw watchlist entry (`name`, `year`, `url`), every field optional
since `film.get(...)` tolerates absent keys. -/
structure WatchlistEntry where
  name : Option String
  year : Option Int
  url : Option String
  deriving Repr, DecidableEq

/-- The normalized watchlist record `{title, year, url}`. -/
structure WatchlistFilm where
  title : Option String
  year : Option Int
  url : Option String
  deriving Repr, DecidableEq

/-- Shallow embedding of `normalize_watchlist_film`
(services/film_service.py lines 41-52): a pure field renaming of the
entry; the slug parameter is accepted and ignored, as in the source
(`_slug`). -/
def normalize_watchlist_film (_slug : String)
    (film : WatchlistEntry) : WatchlistFilm :=
  { title := film.name, year := film.year, url := film.url }

/-- Claim C7: a film of the collection contributes to the output exactly
when its rating is present and positive and it is liked, and every output
record carries half its source rating.  Slugs are mapping keys, hence
pairwise distinct. -/
theorem claim_C7_rated_liked_films (movies : List (String × RawFilm))
    (hnd : (movies.map Prod.fst).Nodup) :
    (∀ p ∈ movies,
      ((∃ g ∈ get_rated_and_liked_films (some movies), g.slug = p.1)
        ↔ ∃ r : Int, p.2.rating = some r ∧ 0 < r ∧ p.2.liked = true))
    ∧ (∀ g ∈ get_rated_and_liked_films (some movies),
        ∃ p ∈ movies, p.1 = g.slug
          ∧ ∃ r : Int, p.2.rating = some r ∧ 0 < r ∧ p.2.liked = true
            ∧ g.rating = (r : ℚ) / 2) := by
  constructor
  · intro p hp
    constructor
    · rintro ⟨g, hg, hslug⟩
      obtain ⟨q, hq, hfq⟩ := List.mem_filterMap.mp hg
      obtain ⟨r, hr, hpos, hlik, hgq⟩ := (ratedFilmEntry_some_iff q g).mp hfq
      have hq1 : q.1 = g.slug := by rw [hgq]
      have hqp : q = p :=
        List.inj_on_of_nodup_map hnd hq hp (by rw [hq1, hslug])
      rw [← hqp]
      exact ⟨r, hr, hpos, hlik⟩
    · rintro ⟨r, hr, hpos, hlik⟩
      refine ⟨{ title := p.2.name
                slug := p.1
                url := "https://letterboxd.com/film/" ++ p.1 ++ "/"
                rating := (r : ℚ) / 2
                year := p.2.year }, ?_, rfl⟩
      exact List.mem_filterMap.mpr ⟨p, hp,
        (ratedFilmEntry_some_iff p _).mpr ⟨r, hr, hpos, hlik, rfl⟩⟩
  · intro g hg
    obtain ⟨q, hq, hfq⟩ := List.mem_filterMap.mp hg
    obtain ⟨r, hr, hpos, hlik, hgq⟩ := (ratedFilmEntry_some_iff q g).mp hfq
    exact ⟨q, hq, by rw [hgq], r, hr, hpos, hlik, by rw [hgq]⟩

/-- Demo film rated 9 and liked. -/
def demoAlpha : String × RawFilm :=
  ("alpha", { name := some "A", year := some 2000, rating := some 9,
              liked := true })

/-- Demo film rated 0 and liked. -/
def demoBeta : String × RawFilm :=
  ("beta", { name := some "B", year := none, rating := some 0,
             liked := true })

/-- Demo film rated 8 and not liked. -/
def demoGamma : String × RawFilm :=
  ("gamma", { name := some "C", year := none, rating := some 8,
              liked := false })

/-- The three demo films, keyed by distinct slugs. -/
def demoMovies : List (String × RawFilm) := [demoAlpha, demoBeta, demoGamma]

/-- Claim C7 witness: with the three demo films, the rated-9-and-liked
film is extracted with rating 9/2 = 4.5, while the rating-0 and the
not-liked films are excluded. -/
theorem claim_C7_witness :
    (∃ g ∈ get_rated_and_liked_films (some demoMovies), g.slug = "alpha")
    ∧ ¬ (∃ g ∈ get_rated_and_liked_films (some demoMovies), g.slug = "beta")
    ∧ ¬ (∃ g ∈ get_rated_and_liked_films (some demoMovies), g.slug = "gamma")
    ∧ (∀ g ∈ get_rated_and_liked_films (some demoMovies),
        g.slug = "alpha" → g.rating = (9 : ℚ) / 2) := by
  have h := claim_C7_rated_liked_films demoMovies (by decide)
  refine ⟨?_, ?_, ?_, ?_⟩
  · exact (h.1 demoAlpha (by simp [demoMovies])).mpr
      ⟨9, rfl, by norm_num, rfl⟩
  · intro hex
    obtain ⟨r, hr, hpos, _⟩ :=
      (h.1 demoBeta (by simp [demoMovies])).mp hex
    simp [demoBeta] at hr
    omega
  · intro hex
    obtain ⟨r, hr, hpos, hlik⟩ :=
      (h.1 demoGamma (by simp [demoMovies])).mp hex
    simp [demoGamma] at hlik
  · intro g hg hslug
    obtain ⟨p, hp, hp1, r, hr, hpos, hlik, hrat⟩ := h.2 g hg
    rw [hslug] at hp1
    simp only [demoMovies, List.mem_cons, List.not_mem_nil, or_false] at hp
    rcases hp with rfl | rfl | rfl
    · have h9 : r = 9 := by
        simp [demoAlpha] at hr
        omega
      rw [hrat, h9]
      norm_num
    · exact absurd hp1 (by simp [demoBeta])
    · exact absurd hp1 (by simp [demoGamma])

/-- Claim C9: watchlist normalization never reads the slug: two calls on
the same entry with different slugs agree, and the output is exactly the
projection of the entry's own `name`, `year` and `url` fields. -/
theorem claim_C9_normalize_slug_independent (s1 s2 : String)
    (film : WatchlistEntry) :
    normalize_watchlist_film s1 film = normalize_watchlist_film s2 film
    ∧ (normalize_watchlist_film s1 film).title = film.name
    ∧ (normalize_watchlist_film s1 film).year = film.year
    ∧ (normalize_watchlist_film s1 film).url = film.url :=
  ⟨rfl, rfl, rfl, rfl⟩


/-- An input film dict for `update_list_with_movies`: only the `title`
and `year` fields are read (`film.get("title")`, `film.get("year")`). -/
structure FilmIn where
  title : Option String
  year : Option Int
  deriving Repr, DecidableEq

/-- The result dict of `update_list_with_movies`. -/
structure UpdateResult where
  success : Bool
  total_films : Nat
  matched : Nat
  not_matched : List String
  added : Nat
  deriving Repr, DecidableEq

/-- Python truthiness of the title as tested by `if not title:` — an
absent title and an empty string are both falsy. -/
def titleTruthy : Option String → Bool
  | none => false
  | some t => decide (t ≠ "")

/-- Python `f"...({year})"` formatting of an optional year: `None` prints
as the string `None`. -/
def fmtOptYear : Option Int → String
  | none => "None"
  | some y => toString y

/-- The film-matching loop of `update_list_with_movies`
(services/tmdb_service.py lines 296-312): each film with a truthy title
is looked up via `search_movie` (here the oracle `search`, which already
models the `None`-on-error behaviour of the source); a hit queues the
TMDb id and bumps `matched`, a miss appends `"{title} ({year})"` to
`not_matched`.  Films without a truthy title are skipped.  Ids, counters
and messages are produced in input order. -/
def processFilms (search : String → Option Int → Option Int) :
    List FilmIn → List Int × Nat × List String
  | [] => ([], 0, [])
  | film :: rest =>
    let r := processFilms search rest
    if titleTruthy film.title = false then r
    else
      match search (film.title.getD "") film.year with
      | some mid => (mid :: r.1, r.2.1 + 1, r.2.2)
      | none =>
        (r.1, r.2.1,
          (film.title.getD "" ++ " (" ++ fmtOptYear film.year ++ ")")
            :: r.2.2)

/-- Shallow embedding of `TMDbService.update_list_with_movies`
(services/tmdb_service.py lines 264-331).  The external operations are
oracles: `clearOk` is the boolean returned by `self.clear_list(list_id)`,
`search` models `search_movie` and `addOk` models
`add_movies_to_list` on the queued ids.  Empty input returns success at
once; a failed clear (when requested) aborts with the initial result;
otherwise the loop runs, and the bulk add is attempted only when some id
was queued. -/
def update_list_with_movies (clearOk : Bool)
    (search : String → Option Int → Option Int)
    (addOk : List Int → Bool)
    (films : List FilmIn) (clear_first : Bool) : UpdateResult :=
  let result0 : UpdateResult :=
    { success := false
      total_films := films.length
      matched := 0
      not_matched := []
      added := 0 }
  if films = [] then { result0 with success := true }
  else if clear_first ∧ clearOk = false then result0
  else
    let r := processFilms search films
    if r.1 ≠ [] then
      if addOk r.1 then
        { result0 with
            success := true
            matched := r.2.1
            not_matched := r.2.2
            added := r.1.length }
      else
        { result0 with
            matched := r.2.1
            not_matched := r.2.2 }
    else
      { result0 with
          success := true
          matched := r.2.1
          not_matched := r.2.2 }

/-- Claim C8: `update_list_with_movies` succeeds exactly when there is
nothing to do (empty input or no queued match) or the bulk add succeeds,
provided the clear step (when requested) did not fail; a failed clear or
a failed add are the only sources of `success = false`. -/
theorem claim_C8_success_iff (clearOk : Bool)
    (search : String → Option Int → Option Int)
    (addOk : List Int → Bool)
    (films : List FilmIn) (clear_first : Bool) :
    (update_list_with_movies clearOk search addOk films clear_first).success
        = true
      ↔ (films = []
        ∨ (¬ (clear_first = true ∧ clearOk = false)
           ∧ ((processFilms search films).1 = []
              ∨ addOk (processFilms search films).1 = true))) := by
  unfold update_list_with_movies
  by_cases h1 : films = []
  · simp [h1]
  · rw [if_neg h1]
    by_cases h2 : clear_first = true ∧ clearOk = false
    · rw [if_pos h2]
      simp [h1, h2]
    · rw [if_neg h2]
      by_cases h3 : (processFilms search films).1 = []
      · rw [if_neg (by simpa using h3)]
        simp [h1, h2, h3]
      · rw [if_pos (by simpa using h3)]
        by_cases h4 : addOk (processFilms search films).1 = true
        · rw [if_pos h4]
          simp [h1, h2, h3, h4]
        · rw [if_neg h4]
          simp [h1, h2, h3, h4]

/-- The loop invariant of `processFilms`: as many ids are queued as films
are counted matched, and matched, unmatched and title-less films
partition the input. -/
lemma processFilms_spec (search : String → Option Int → Option Int)
    (films : List FilmIn) :
    (processFilms search films).1.length = (processFilms search films).2.1
    ∧ (processFilms search films).2.1
        + (processFilms search films).2.2.length
        + films.countP (fun f => ! titleTruthy f.title)
      = films.length := by
  induction films with
  | nil => simp [processFilms]
  | cons film rest ih =>
    rcases ih with ⟨ih1, ih2⟩
    cases htt : titleTruthy film.title with
    | false =>
      simp only [processFilms, htt, List.countP_cons, List.length_cons]
      norm_num
      exact ⟨ih1, by omega⟩
    | true =>
      simp only [processFilms, htt, List.countP_cons, List.length_cons]
      norm_num
      rcases hs : search (film.title.getD "") film.year with _ | mid
      · simp only [hs]
        refine ⟨ih1, ?_⟩
        simp only [List.length_cons]
        omega
      · simp only [hs]
        refine ⟨by simpa using ih1, ?_⟩
        omega
/-- Claim C10 (amended): whenever the clear step does not fail early
(clear not requested, or it reports success), the result of
`update_list_with_movies` satisfies the accounting invariant:
`matched + |not_matched| + #{films with falsy title} = total_films`, and
`added` is `0` or equal to `matched`.  When a requested clear fails the
function returns early with `matched`, `not_matched` and `added` all
zero while `total_films` still counts the input — see the
counterexample. -/
theorem claim_C10_accounting (clearOk : Bool)
    (search : String → Option Int → Option Int)
    (addOk : List Int → Bool)
    (films : List FilmIn) (clear_first : Bool)
    (h : clear_first = false ∨ clearOk = true) :
    (update_list_with_movies clearOk search addOk films clear_first).matched
      + (update_list_with_movies clearOk search addOk films
          clear_first).not_matched.length
      + films.countP (fun f => ! titleTruthy f.title)
      = (update_list_with_movies clearOk search addOk films
          clear_first).total_films
    ∧ ((update_list_with_movies clearOk search addOk films
          clear_first).added = 0
       ∨ (update_list_with_movies clearOk search addOk films
            clear_first).added
          = (update_list_with_movies clearOk search addOk films
              clear_first).matched) := by
  have hspec := processFilms_spec search films
  unfold update_list_with_movies
  by_cases h1 : films = []
  · subst h1
    simp
  · rw [if_neg h1, if_neg (by rcases h with h | h <;> simp [h])]
    by_cases h3 : (processFilms search films).1 = []
    · rw [if_neg (by simpa using h3)]
      exact ⟨hspec.2, Or.inl rfl⟩
    · rw [if_pos (by simpa using h3)]
      by_cases h4 : addOk (processFilms search films).1 = true
      · rw [if_pos h4]
        exact ⟨hspec.2, Or.inr hspec.1⟩
      · rw [if_neg h4]
        exact ⟨hspec.2, Or.inl rfl⟩

/-- The input of the C10 counterexample: one film with a present title. -/
def cexFilms : List FilmIn := [{ title := some "A", year := some 1999 }]

/-- Claim C10 counterexample: when the requested clear fails,
`update_list_with_movies` returns early and the accounting equation of
the original claim does not hold: `matched + |not_matched| + #titleless`
is `0` while `total_films` is `1`. -/
theorem claim_C10_counterexample :
    ¬ ((update_list_with_movies false (fun _ _ => none) (fun _ => false)
          cexFilms true).matched
        + (update_list_with_movies false (fun _ _ => none) (fun _ => false)
            cexFilms true).not_matched.length
        + cexFilms.countP (fun f => ! titleTruthy f.title)
        = (update_list_with_movies false (fun _ _ => none) (fun _ => false)
            cexFilms true).total_films) := by
  decide

/-- The films of the C10 witness: one matchable film, one film without a
title. -/
def witFilms : List FilmIn :=
  [{ title := some "A", year := some 1999 }, { title := none, year := none }]

/-- The search oracle of the C10 witness: title `"A"` matches id 11. -/
def witSearch : String → Option Int → Option Int :=
  fun t _ => if t = "A" then some 11 else none

/-- Claim C10 witness: with a successful clear, one matched film and one
title-less film, the accounting invariant holds. -/
theorem claim_C10_witness :
    (update_list_with_movies true witSearch (fun _ => true)
        witFilms true).matched
      + (update_list_with_movies true witSearch (fun _ => true)
          witFilms true).not_matched.length
      + witFilms.countP (fun f => ! titleTruthy f.title)
      = (update_list_with_movies true witSearch (fun _ => true)
          witFilms true).total_films
    ∧ ((update_list_with_movies true witSearch (fun _ => true)
          witFilms true).added = 0
       ∨ (update_list_with_movies true witSearch (fun _ => true)
            witFilms true).added
          = (update_list_with_movies true witSearch (fun _ => true)
              witFilms true).matched) :=
  claim_C10_accounting true witSearch (fun _ => true) witFilms true
    (Or.inr rfl)

end LetterboxList
